import Mathlib

/-!
Verification development for the kalshi-analysis market-data ingestion core.

This file shallowly embeds the dual-source ingestion pipeline of the
repository: the snapshot store (`backend/domain/models/market.py`,
`backend/domain/repositories/base.py`), the gap detector
(`MarketRepository.detect_gaps` in `backend/domain/repositories/market.py`),
the gap filler (`GapFiller.check_and_fill_gaps` in
`backend/infrastructure/polling/gap_filler.py`), the REST poller and the
WebSocket save path (`MarketPoller.poll_markets`,
`MarketPoller.listen_websocket`, `MarketPoller._save_websocket_snapshot` in
`backend/infrastructure/polling/poller.py`), and the WebSocket client
(`KalshiWebSocketClient` in
`backend/infrastructure/kalshi/websocket_client.py`).

Modelling conventions:
- Timestamps are modelled as integers (`Int`); the ISO-8601 string parsing
  done by `datetime.fromisoformat` is abstracted away — a message carries an
  already-parsed optional timestamp.
- Python `Decimal` prices are modelled as `Rat`.
- Python dicts received from upstream are modelled as structures of optional
  fields; `dict.get(k)` becomes an `Option` field, `dict.get(k, d)` becomes
  `Option.getD _ d`.
- The database is modelled as a list of rows.  The PostgreSQL partial unique
  index `ix_ticker_source_sequence` (unique on `(ticker, source, sequence)`
  where `source = WEBSOCKET`) and the `String(50)` bound on `ticker` are
  enforced by the `appendSnap` operation, which either returns the extended
  row list or the corresponding database error.  SQLAlchemy sessions are
  modelled by threading the pending row list explicitly: a batch of `flush`es
  becomes visible only at `commit`, and an exception before `commit` rolls
  the whole pending batch back.
- `async` suspension and logging are irrelevant to the claims and are elided;
  a caught-and-logged exception is modelled by returning the unchanged state.
-/

/-- Provenance tag of a snapshot row (`DataSource` in
`backend/domain/models/market.py`). -/
inductive DataSource where
  | POLL
  | WEBSOCKET
  | BACKFILL
deriving DecidableEq

/-- A market record as returned by the REST `get_markets` call: a dict whose
fields may be absent (`market.get(...)` in `MarketPoller.poll_markets`). -/
structure MarketRecord where
  ticker : Option String
  yes_bid : Option Int
  no_bid : Option Int
  volume : Option Int
deriving DecidableEq

/-- An inbound WebSocket message as consumed by `MarketPoller`: a parsed JSON
dict with optional fields `type`, `ticker`, `yes_price`, `no_price`,
`volume`, `seq`, `timestamp`.  The `timestamp` field abstracts the ISO
string as an already-parsed instant. -/
structure WsMessage where
  type : Option String
  ticker : Option String
  yes_price : Option Int
  no_price : Option Int
  volume : Option Int
  seq : Option Int
  timestamp : Option Int
deriving DecidableEq

/-- The opaque `raw_data` payload stored with each snapshot: the full REST
market record on the poll path, the full message on the push path. -/
inductive RawData where
  | fromPoll (m : MarketRecord)
  | fromWs (m : WsMessage)
deriving DecidableEq

/-- A row of the `market_snapshots` table (`MarketSnapshot` in
`backend/domain/models/market.py`).  The generated `id` and `created_at`
columns play no role in any claim and are elided. -/
structure MarketSnapshot where
  ticker : String
  timestamp : Int
  source : DataSource
  sequence : Option Int
  yes_price : Rat
  no_price : Rat
  volume : Int
  raw_data : RawData
deriving DecidableEq

/-- The visible (committed) content of the `market_snapshots` table. -/
abbrev Store := List MarketSnapshot

/-- Errors an `INSERT` (session `flush`) can raise for this table: violation
of the partial unique index `ix_ticker_source_sequence`, or a value rejected
by a column constraint (the `String(50)` bound on `ticker`). -/
inductive AppendError where
  | DuplicateSequenceError
  | ValidationError
deriving DecidableEq

/-- Does inserting `s` violate the partial unique index
`ix_ticker_source_sequence` (unique on `(ticker, source, sequence)` where
`source = WEBSOCKET`)?  NULL sequences never collide, matching PostgreSQL
semantics of NULLs in unique indexes. -/
def dupWebsocketSeq (rows : Store) (s : MarketSnapshot) : Bool :=
  decide (s.source = DataSource.WEBSOCKET) && s.sequence.isSome &&
    rows.any fun r =>
      decide (r.ticker = s.ticker ∧ r.source = DataSource.WEBSOCKET ∧ r.sequence = s.sequence)

/-- Column-level validity: `ticker` is a `String(50)` column, so PostgreSQL
rejects longer values. -/
def validSnapshot (s : MarketSnapshot) : Bool :=
  decide (s.ticker.length ≤ 50)

/-- One `INSERT` of a snapshot row against the visible rows `rows`
(`BaseRepository.create`: construct, `add`, `flush`).  Fails with the
database error instead of ever producing a duplicate row. -/
def appendSnap (rows : Store) (s : MarketSnapshot) : Except AppendError Store :=
  if !validSnapshot s then .error .ValidationError
  else if dupWebsocketSeq rows s then .error .DuplicateSequenceError
  else .ok (rows ++ [s])

/-- The WEBSOCKET-sourced non-null sequence numbers stored for `tk`, in row
order (the `WHERE` clause of the query in `MarketRepository.detect_gaps`). -/
def wsSequences (store : Store) (tk : String) : List Int :=
  store.filterMap fun r =>
    if r.ticker = tk ∧ r.source = DataSource.WEBSOCKET then r.sequence else none

/-- The same sequence numbers sorted ascending (the `ORDER BY sequence` of
the query in `MarketRepository.detect_gaps`). -/
def sequencesForTicker (store : Store) (tk : String) : List Int :=
  List.insertionSort (· ≤ ·) (wsSequences store tk)

/-- Embedding of `MarketRepository.detect_gaps`: fetch the sorted WEBSOCKET
sequence numbers of `tk`; with fewer than two, no gaps; otherwise every
integer of `[min, max]` absent from the observed set, ascending. -/
def detect_gaps (store : Store) (tk : String) : List Int :=
  let sequences := sequencesForTicker store tk
  if sequences.length < 2 then []
  else
    let min_seq := sequences.headD 0
    let max_seq := sequences.getLastD 0
    ((List.range (max_seq + 1 - min_seq).toNat).map fun (i : Nat) => min_seq + (i : Int)).filter
      fun s => !sequences.contains s

/-- Embedding of `GapFiller.check_and_fill_gaps`.  Besides the returned
count, the model exposes the two observable effects of a call: the list of
gap sequences the backfill loop iterated over (`gaps_to_fill = gaps[:100]`,
each only logged as unrecoverable — sequence-based fetch is unsupported) and
the store after the final `commit` (which commits an unchanged session). -/
structure GapFillResult where
  filled : Nat
  attempted : List Int
  store : Store
deriving DecidableEq

/-- Embedding of `GapFiller.check_and_fill_gaps`: detect gaps; if none,
return 0; otherwise iterate over at most `max_backfill = 100` gaps, logging
each as unrecoverable, append nothing, commit, and return 0. -/
def check_and_fill_gaps (store : Store) (tk : String) : GapFillResult :=
  let gaps := detect_gaps store tk
  if gaps = [] then ⟨0, [], store⟩
  else
    let max_backfill := 100
    let gaps_to_fill := gaps.take max_backfill
    ⟨0, gaps_to_fill, store⟩

/-- Translation of one REST market record into a POLL snapshot
(`MarketPoller.poll_markets` loop body): `yes_bid`/`no_bid`/`volume`
defaulted to 0 when absent, `sequence = None`, timestamp `t` is the
`datetime.utcnow()` capture time of this append. -/
def pollSnap (tk : String) (m : MarketRecord) (t : Int) : MarketSnapshot :=
  { ticker := tk
    timestamp := t
    source := DataSource.POLL
    sequence := none
    yes_price := ((m.yes_bid.getD 0 : Int) : Rat)
    no_price := ((m.no_bid.getD 0 : Int) : Rat)
    volume := m.volume.getD 0
    raw_data := .fromPoll m }

/-- The `for market in markets` loop of `MarketPoller.poll_markets`, run in a
session whose visible rows are `rows`: records without a truthy `ticker` are
skipped (`continue`); each remaining record is flushed as one POLL snapshot
(`repo.create_snapshot`).  The clock `t` advances by one per `utcnow` call,
so successive appends carry their own capture times.  The first failing
flush raises, abandoning the rest of the loop. -/
def pollBatch (rows : Store) (t : Int) : List MarketRecord → Except AppendError (List MarketSnapshot)
  | [] => .ok []
  | m :: rest =>
    match m.ticker with
    | none => pollBatch rows t rest
    | some tk =>
      if tk = "" then pollBatch rows t rest
      else
        match appendSnap rows (pollSnap tk m t) with
        | .error e => .error e
        | .ok rows2 =>
          match pollBatch rows2 (t + 1) rest with
          | .error e => .error e
          | .ok snaps => .ok (pollSnap tk m t :: snaps)

/-- Embedding of one `MarketPoller.poll_markets` cycle over an
already-fetched batch `markets`, starting from committed store `store`.  If
every flush in the loop succeeds, `session.commit()` publishes the batch;
any exception is caught by the surrounding `except`, the session exits
without committing, and the store is left as it was. -/
def poll_markets (store : Store) (t : Int) (markets : List MarketRecord) : Store :=
  match pollBatch store t markets with
  | .ok snaps => store ++ snaps
  | .error _ => store

/-- Translation of a ticker message into a WEBSOCKET snapshot
(`MarketPoller._save_websocket_snapshot`): prices are
`Decimal(str(message.get(p, 0))) / 100`, the upstream `seq` is carried
verbatim (including absence), and the timestamp is the upstream-reported one
when present, else the `utcnow` capture time `now`. -/
def wsSnap (tk : String) (msg : WsMessage) (now : Int) : MarketSnapshot :=
  { ticker := tk
    timestamp := msg.timestamp.getD now
    source := DataSource.WEBSOCKET
    sequence := msg.seq
    yes_price := ((msg.yes_price.getD 0 : Int) : Rat) / 100
    no_price := ((msg.no_price.getD 0 : Int) : Rat) / 100
    volume := msg.volume.getD 0
    raw_data := .fromWs msg }

/-- Embedding of `MarketPoller._save_websocket_snapshot`.  A missing or
empty `ticker` returns early with no append attempt.  Otherwise one snapshot
flush+commit is attempted; any exception (duplicate sequence included) is
caught by the function's own `except`, logged, and the store is left
unchanged.  The Boolean reports whether an append was attempted.  The
function always returns normally: no error reaches the caller. -/
def save_ws_snapshot (msg : WsMessage) (now : Int) (store : Store) : Store × Bool :=
  match msg.ticker with
  | none => (store, false)
  | some tk =>
    if tk = "" then (store, false)
    else
      match appendSnap store (wsSnap tk msg now) with
      | .ok rows => (rows, true)
      | .error _ => (store, true)

/-- The message loop of `MarketPoller.listen_websocket` over a list of
already-decoded messages: each message whose `type` is `"ticker"` goes
through `_save_websocket_snapshot`; everything else is ignored.  Returns the
final store and the number of snapshot append attempts made. -/
def processMessages (now : Int) : List WsMessage → Store → Store × Nat
  | [], store => (store, 0)
  | m :: rest, store =>
    if m.type = some ("ticker") then
      let r := save_ws_snapshot m now store
      let rec2 := processMessages now rest r.1
      (rec2.1, (if r.2 then 1 else 0) + rec2.2)
    else processMessages now rest store

/-- Embedding of `KalshiWebSocketClient.listen` over a finite stream of raw
frames: each frame is decoded (`json.loads`, abstracted as the `decode`
parameter); an undecodable frame is logged and skipped (`continue`), a
decoded one is yielded to the consumer.  The loop never dies on a malformed
frame. -/
def KalshiWebSocketClient.listen (decode : String → Option WsMessage)
    (raws : List String) : List WsMessage :=
  raws.filterMap decode

/-- The composed push pipeline: `listen` feeding the message loop of
`MarketPoller.listen_websocket`. -/
def listenPipeline (decode : String → Option WsMessage) (raws : List String)
    (now : Int) (store : Store) : Store × Nat :=
  processMessages now (KalshiWebSocketClient.listen decode raws) store

/-- A subscription message sent to the WebSocket, e.g.
`{"type": "ticker", "market_ticker": "*"}`. -/
structure Channel where
  type : String
  market_ticker : String
deriving DecidableEq

/-- State of a `KalshiWebSocketClient` instance: whether `self.ws` holds a
live connection, and the process-local `self._subscriptions` list. -/
structure WsClient where
  connected : Bool
  subscriptions : List Channel
deriving DecidableEq

/-- Embedding of `KalshiWebSocketClient.subscribe`: raises `RuntimeError`
when not connected; otherwise sends the channel message and appends it to
`self._subscriptions`.  The second component is the transcript of `_send`
calls this operation performed. -/
def subscribe (c : WsClient) (ch : Channel) : Except String (WsClient × List Channel) :=
  if !c.connected then .error ("WebSocket not connected. Call connect() first.")
  else .ok ({ c with subscriptions := c.subscriptions ++ [ch] }, [ch])

/-- A sequence of successful `subscribe` calls; the first failure aborts. -/
def subscribeAll (c : WsClient) : List Channel → Except String WsClient
  | [] => .ok c
  | ch :: rest =>
    match subscribe c ch with
    | .error e => .error e
    | .ok r => subscribeAll r.1 rest

/-- A transport drop (`ConnectionClosed` ending the message loop, then
`close()`): the connection handle is gone, `self._subscriptions` is kept. -/
def on_disconnect (c : WsClient) : WsClient :=
  { c with connected := false }

/-- Embedding of a successful `KalshiWebSocketClient.connect` attempt: the
handshake succeeds and every channel of `self._subscriptions` is re-sent, in
list order, before `connect` returns — hence before the caller can consume
any message of the new connection.  The second component is the transcript
of `_send` calls performed during `connect`. -/
def connect_success (c : WsClient) : WsClient × List Channel :=
  ({ c with connected := true }, c.subscriptions)

/-- One append attempt against the visible store, as performed by any of the
three writer paths (poll commit, push save, backfill): on a database error
the writer catches and logs, so the store is unchanged. -/
def applyAppend (store : Store) (s : MarketSnapshot) : Store :=
  match appendSnap store s with
  | .ok rows => rows
  | .error _ => store

/-- Any serialized interleaving of appends from the poll, push, and backfill
writers. -/
def applyAppends (store : Store) (ops : List MarketSnapshot) : Store :=
  ops.foldl applyAppend store

/-- The store-uniqueness invariant of claim C2: for every ticker and every
sequence number, at most one WEBSOCKET row with that pair is visible. -/
def WsUnique (store : Store) : Prop :=
  ∀ tk : String, ∀ sq : Int,
    (store.filter fun r =>
      decide (r.ticker = tk ∧ r.source = DataSource.WEBSOCKET ∧ r.sequence = some sq)).length ≤ 1

/-- An upstream message with every field absent; used to build concrete
stores for witnesses. -/
def emptyMsg : WsMessage :=
  ⟨none, none, none, none, none, none, none⟩

/-- A concrete WEBSOCKET row with sequence `s` for ticker `"T"`. -/
def snapSeq (s : Int) : MarketSnapshot :=
  ⟨("T"), 0, .WEBSOCKET, some s, 0, 0, 0, .fromWs emptyMsg⟩

/-- Concrete store whose WEBSOCKET sequences for `"T"` are 1, 2, 4, 5, 7
(inserted out of order; the detector sorts them). -/
def exStoreC1 : Store :=
  [snapSeq 1, snapSeq 4, snapSeq 2, snapSeq 7, snapSeq 5]

/-- Concrete store with a single observed sequence for `"T"`. -/
def exStoreSingle : Store :=
  [snapSeq 5]

example : detect_gaps exStoreC1 ("T") = [3, 6] := by decide

example : detect_gaps exStoreSingle ("T") = [] := by decide

/-- A successful append returns the old rows with the new one at the end,
and implies that both store-level checks passed. -/
theorem appendSnap_ok_inv {rows rows' : Store} {s : MarketSnapshot}
    (h : appendSnap rows s = .ok rows') :
    rows' = rows ++ [s] ∧ validSnapshot s = true ∧ dupWebsocketSeq rows s = false := by
  unfold appendSnap at h
  by_cases h1 : validSnapshot s
  · by_cases h2 : dupWebsocketSeq rows s
    · simp [h1, h2] at h
    · simp [h1, h2] at h
      exact ⟨h.symm, h1, by simp [h2]⟩
  · simp [h1] at h

/-- A true duplicate check makes the append fail with some error, and the
writer that catches it leaves the store unchanged. -/
theorem appendSnap_dup_error {rows : Store} {s : MarketSnapshot}
    (h : dupWebsocketSeq rows s = true) :
    (∃ e, appendSnap rows s = .error e) ∧ applyAppend rows s = rows := by
  unfold appendSnap applyAppend
  by_cases h1 : validSnapshot s
  · simp [h1, h, appendSnap]
  · simp [h1, appendSnap]

/-- Claim C4: `checkAndFillGaps` is best-effort and total: it returns 0 both
when no gaps exist and when they do, iterates over at most the capped prefix
`gaps[:100]` of the missing-sequence list, appends no rows (the store after
its commit is the store it started from), and leaves the stored gap list
unchanged.  Being a total Lean function, it returns on every input — the
embedding of the fact that the code raises nothing. -/
theorem c4_check_and_fill_gaps_best_effort (store : Store) (tk : String) :
    (check_and_fill_gaps store tk).filled = 0 ∧
    (check_and_fill_gaps store tk).store = store ∧
    (check_and_fill_gaps store tk).attempted = (detect_gaps store tk).take 100 ∧
    detect_gaps (check_and_fill_gaps store tk).store tk = detect_gaps store tk := by
  unfold check_and_fill_gaps
  by_cases h : detect_gaps store tk = []
  · simp [h]
  · simp [h]

/-- Claim C10: the push path persists upstream integer prices divided by
100, while the poll path persists the fetched bid values unscaled, so the
same upstream cent value `p` is stored in different units by the two
sources whenever `p ≠ 0`. -/
theorem c10_price_unit_mismatch (p : Int) (tk : String) (msg : WsMessage)
    (mkt : MarketRecord) (now t : Int)
    (hy : msg.yes_price = some p) (hn : msg.no_price = some p)
    (hby : mkt.yes_bid = some p) (hbn : mkt.no_bid = some p) (hp : p ≠ 0) :
    (wsSnap tk msg now).yes_price = (p : Rat) / 100 ∧
    (wsSnap tk msg now).no_price = (p : Rat) / 100 ∧
    (pollSnap tk mkt t).yes_price = (p : Rat) ∧
    (pollSnap tk mkt t).no_price = (p : Rat) ∧
    (wsSnap tk msg now).yes_price ≠ (pollSnap tk mkt t).yes_price := by
  refine ⟨by simp [wsSnap, hy], by simp [wsSnap, hn],
    by simp [pollSnap, hby], by simp [pollSnap, hbn], ?_⟩
  simp only [wsSnap, pollSnap, hy, hby, Option.getD_some]
  intro h
  rw [div_eq_iff (by norm_num : (100 : Rat) ≠ 0)] at h
  have hpQ : (p : Rat) ≠ 0 := Int.cast_ne_zero.mpr hp
  exact hpQ (by linarith)

/-- Witness for C10 at the concrete upstream cent price 42: the two paths
disagree on the persisted value. -/
theorem c10_price_unit_mismatch_witness :
    (wsSnap ("T") ⟨some ("ticker"), some ("T"), some 42, some 42, some 0, none, none⟩ 0).yes_price ≠
      (pollSnap ("T") ⟨some ("T"), some 42, some 42, some 0⟩ 0).yes_price :=
  (c10_price_unit_mismatch 42 ("T") ⟨some ("ticker"), some ("T"), some 42, some 42, some 0, none, none⟩
    ⟨some ("T"), some 42, some 42, some 0⟩ 0 0 rfl rfl rfl rfl (by decide)).2.2.2.2

/-- Claim C6: when the store append of a ticker message fails with the
duplicate-sequence error, `_save_websocket_snapshot` catches it, logs, and
returns normally with the store unchanged (its return type carries no error
channel: nothing propagates to the caller), and the surrounding message loop
continues with the remaining messages exactly as if the message had been a
clean no-op. -/
theorem c6_duplicate_seq_tolerated (msg : WsMessage) (now : Int) (store : Store)
    (tk : String) (h0 : msg.type = some ("ticker"))
    (h1 : msg.ticker = some tk) (h2 : tk ≠ "")
    (hdup : appendSnap store (wsSnap tk msg now) = .error .DuplicateSequenceError) :
    save_ws_snapshot msg now store = (store, true) ∧
    ∀ rest : List WsMessage,
      processMessages now (msg :: rest) store =
        ((processMessages now rest store).1, 1 + (processMessages now rest store).2) := by
  have hsave : save_ws_snapshot msg now store = (store, true) := by
    simp [save_ws_snapshot, h1, h2, hdup]
  refine ⟨hsave, fun rest => ?_⟩
  simp [processMessages, h0, hsave]

/-- A duplicate message: sequence 5 for ticker `"T"`, arriving when the
store already holds that pair. -/
def dupMsg : WsMessage :=
  ⟨some ("ticker"), some ("T"), some 10, some 10, some 3, some 5, some 100⟩

/-- Witness for C6: a second delivery of sequence 5 is absorbed, and the
loop count just records the attempt. -/
theorem c6_duplicate_seq_tolerated_witness :
    save_ws_snapshot dupMsg 0 [wsSnap ("T") dupMsg 0] = ([wsSnap ("T") dupMsg 0], true) ∧
    ∀ rest : List WsMessage,
      processMessages 0 (dupMsg :: rest) [wsSnap ("T") dupMsg 0] =
        ((processMessages 0 rest [wsSnap ("T") dupMsg 0]).1,
          1 + (processMessages 0 rest [wsSnap ("T") dupMsg 0]).2) :=
  c6_duplicate_seq_tolerated dupMsg 0 [wsSnap ("T") dupMsg 0] ("T")
    rfl rfl (by decide) rfl

/-- Claim C7: subscriptions established by `subscribe` accumulate in the
client's process-local list, survive a transport drop, and a subsequent
successful `connect` re-sends exactly that list, in order, as part of the
`connect` call itself — hence before the caller can consume any message of
the new connection. -/
theorem c7_reconnect_resubscription (c : WsClient) (chans : List Channel)
    (hc : c.connected = true) :
    ∃ c' : WsClient, subscribeAll c chans = .ok c' ∧
      c'.subscriptions = c.subscriptions ++ chans ∧
      (connect_success (on_disconnect c')).2 = c.subscriptions ++ chans ∧
      (connect_success (on_disconnect c')).1.connected = true ∧
      (connect_success (on_disconnect c')).1.subscriptions = c.subscriptions ++ chans := by
  induction chans generalizing c with
  | nil =>
    exact ⟨c, rfl, by simp, by simp [connect_success, on_disconnect], rfl,
      by simp [connect_success, on_disconnect]⟩
  | cons ch rest ih =>
    have hstep : subscribeAll c (ch :: rest) =
        subscribeAll { c with subscriptions := c.subscriptions ++ [ch] } rest := by
      simp [subscribeAll, subscribe, hc]
    obtain ⟨c', h1, h2, h3, h4, h5⟩ :=
      ih { c with subscriptions := c.subscriptions ++ [ch] } hc
    exact ⟨c', by rw [hstep]; exact h1, by simpa using h2, by simpa using h3, h4,
      by simpa using h5⟩

/-- Witness for C7: two subscriptions made on a live client are both resent,
in order, by the reconnect. -/
theorem c7_reconnect_resubscription_witness :
    ∃ c' : WsClient,
      subscribeAll ⟨true, []⟩ [⟨("ticker"), ("*")⟩, ⟨("ticker"), ("AAA")⟩] = .ok c' ∧
      c'.subscriptions = [] ++ [⟨("ticker"), ("*")⟩, ⟨("ticker"), ("AAA")⟩] ∧
      (connect_success (on_disconnect c')).2 = [] ++ [⟨("ticker"), ("*")⟩, ⟨("ticker"), ("AAA")⟩] ∧
      (connect_success (on_disconnect c')).1.connected = true ∧
      (connect_success (on_disconnect c')).1.subscriptions =
        [] ++ [⟨("ticker"), ("*")⟩, ⟨("ticker"), ("AAA")⟩] :=
  c7_reconnect_resubscription ⟨true, []⟩ [⟨("ticker"), ("*")⟩, ⟨("ticker"), ("AAA")⟩] rfl

/-- Claim C9: a ticker message with a usable ticker is translated into a
WEBSOCKET snapshot that carries the upstream `seq` field verbatim (absence
included) and whose timestamp is the upstream-reported one when the message
carries one, else the capture time; `_save_websocket_snapshot` appends
exactly that snapshot (or appends nothing when the store refuses it). -/
theorem c9_ticker_translation (msg : WsMessage) (now : Int) (store : Store)
    (tk : String) (h1 : msg.ticker = some tk) (h2 : tk ≠ "") :
    (wsSnap tk msg now).sequence = msg.seq ∧
    (wsSnap tk msg now).timestamp =
      (match msg.timestamp with | some ts => ts | none => now) ∧
    (wsSnap tk msg now).source = DataSource.WEBSOCKET ∧
    (save_ws_snapshot msg now store = (store ++ [wsSnap tk msg now], true) ∨
      save_ws_snapshot msg now store = (store, true)) := by
  refine ⟨rfl, by cases h : msg.timestamp <;> simp [wsSnap, h], rfl, ?_⟩
  cases hap : appendSnap store (wsSnap tk msg now) with
  | ok rows =>
    left
    have := (appendSnap_ok_inv hap).1
    simp [save_ws_snapshot, h1, h2, hap, this]
  | error e =>
    right
    simp [save_ws_snapshot, h1, h2, hap]

/-- A ticker message carrying an upstream timestamp and a sequence. -/
def tsMsg : WsMessage :=
  ⟨some ("ticker"), some ("T"), some 17, some 83, some 4, some 9, some 1234⟩

/-- Witness for C9: the message's own timestamp 1234 and sequence 9 survive
verbatim into the appended snapshot. -/
theorem c9_ticker_translation_witness :
    (wsSnap ("T") tsMsg 55).sequence = tsMsg.seq ∧
    (wsSnap ("T") tsMsg 55).timestamp =
      (match tsMsg.timestamp with | some ts => ts | none => 55) ∧
    (wsSnap ("T") tsMsg 55).source = DataSource.WEBSOCKET ∧
    (save_ws_snapshot tsMsg 55 [] = ([] ++ [wsSnap ("T") tsMsg 55], true) ∨
      save_ws_snapshot tsMsg 55 [] = ([], true)) :=
  c9_ticker_translation tsMsg 55 [] ("T") rfl (by decide)

/-- A ticker message with a usable ticker always produces exactly one append
attempt, whatever the store answers. -/
theorem save_ws_attempted (msg : WsMessage) (now : Int) (store : Store) (tk : String)
    (h1 : msg.ticker = some tk) (h2 : tk ≠ "") :
    (save_ws_snapshot msg now store).2 = true := by
  cases hap : appendSnap store (wsSnap tk msg now) <;>
    simp [save_ws_snapshot, h1, h2, hap]

/-- Claim C5: an undecodable frame is dropped by the listener — it causes no
append and the pipeline continues on the remaining frames unchanged — and in
particular one undecodable frame followed by one valid ticker message yields
exactly one snapshot append attempt.  Both pipeline functions are total, so
no input crashes the loop. -/
theorem c5_malformed_resilience (decode : String → Option WsMessage) (now : Int)
    (store : Store) (bad : String) (hbad : decode bad = none) :
    (∀ rest : List String,
      listenPipeline decode (bad :: rest) now store = listenPipeline decode rest now store) ∧
    (∀ good : String, ∀ m : WsMessage, ∀ tk : String,
      decode good = some m → m.type = some ("ticker") → m.ticker = some tk → tk ≠ "" →
      (listenPipeline decode [bad, good] now store).2 = 1) := by
  constructor
  · intro rest
    simp [listenPipeline, KalshiWebSocketClient.listen, hbad]
  · intro good m tk hg ht htk hne
    simp [listenPipeline, KalshiWebSocketClient.listen, hbad, hg, processMessages, ht,
      save_ws_attempted m now store tk htk hne]

/-- A concrete decoder for the C5 witness: only the frame `"good"` decodes
(to `tsMsg`); every other frame is undecodable. -/
def decodeEx : String → Option WsMessage :=
  fun s => if s = "good" then some tsMsg else none

/-- Witness for C5: the frame `"bad"` is dropped and the stream
`["bad", "good"]` produces exactly one append attempt. -/
theorem c5_malformed_resilience_witness :
    (∀ rest : List String,
      listenPipeline decodeEx (("bad") :: rest) 0 [] = listenPipeline decodeEx rest 0 []) ∧
    (listenPipeline decodeEx [("bad"), ("good")] 0 []).2 = 1 := by
  have h := c5_malformed_resilience decodeEx 0 [] ("bad") (by decide)
  exact ⟨h.1, h.2 ("good") tsMsg ("T") (by decide) rfl rfl (by decide)⟩

/-- The batch translation the spec claims for a poll cycle, stated from the
spec's words: skip each record without a usable ticker, translate each
remaining record in order into a POLL snapshot stamped with its own capture
time.  Compared against `pollBatch` below. -/
def pollBatchSpec (t : Int) : List MarketRecord → List MarketSnapshot
  | [] => []
  | m :: rest =>
    match m.ticker with
    | none => pollBatchSpec t rest
    | some tk =>
      if tk = "" then pollBatchSpec t rest
      else pollSnap tk m t :: pollBatchSpec (t + 1) rest

/-- A POLL snapshot can never violate the WEBSOCKET-only unique index. -/
theorem dupWebsocketSeq_pollSnap (rows : Store) (tk : String) (m : MarketRecord) (t : Int) :
    dupWebsocketSeq rows (pollSnap tk m t) = false := rfl

/-- Appending a POLL snapshot with an in-bounds ticker always succeeds. -/
theorem appendSnap_pollSnap_ok (rows : Store) (tk : String) (m : MarketRecord) (t : Int)
    (h : tk.length ≤ 50) :
    appendSnap rows (pollSnap tk m t) = .ok (rows ++ [pollSnap tk m t]) := by
  have hv : validSnapshot (pollSnap tk m t) = true := by
    simp [validSnapshot, pollSnap, h]
  simp [appendSnap, hv, dupWebsocketSeq_pollSnap]

/-- On a batch whose usable tickers are all in column bounds, the poll loop
flushes exactly the spec translation. -/
theorem pollBatch_ok_of_valid (markets : List MarketRecord) :
    ∀ store : Store, ∀ t : Int,
    (∀ m ∈ markets, (m.ticker.getD ("")).length ≤ 50) →
    pollBatch store t markets = .ok (pollBatchSpec t markets) := by
  induction markets with
  | nil => intro store t _; rfl
  | cons m rest ih =>
    intro store t hok
    have hm := hok m (List.mem_cons_self m rest)
    have hrest : ∀ m2 ∈ rest, (m2.ticker.getD ("")).length ≤ 50 :=
      fun m2 hm2 => hok m2 (List.mem_cons_of_mem m hm2)
    cases htk : m.ticker with
    | none => simp [pollBatch, pollBatchSpec, htk, ih store t hrest]
    | some tk =>
      by_cases he : tk = ""
      · simp [pollBatch, pollBatchSpec, htk, he, ih store t hrest]
      · have hlen : tk.length ≤ 50 := by simpa [htk] using hm
        simp [pollBatch, pollBatchSpec, htk, he,
          appendSnap_pollSnap_ok store tk m t hlen,
          ih (store ++ [pollSnap tk m t]) (t + 1) hrest]

/-- Every snapshot of the spec translation is POLL-sourced and
sequence-free. -/
theorem pollBatchSpec_fields (markets : List MarketRecord) :
    ∀ t : Int, ∀ s ∈ pollBatchSpec t markets,
      s.source = DataSource.POLL ∧ s.sequence = none := by
  induction markets with
  | nil => intro t s hs; simp [pollBatchSpec] at hs
  | cons m rest ih =>
    intro t s hs
    cases htk : m.ticker with
    | none =>
      simp only [pollBatchSpec, htk] at hs
      exact ih t s hs
    | some tk =>
      by_cases he : tk = ""
      · simp only [pollBatchSpec, htk, if_pos he] at hs
        exact ih t s hs
      · simp only [pollBatchSpec, htk, if_neg he] at hs
        rcases List.mem_cons.mp hs with rfl | hs2
        · exact ⟨rfl, rfl⟩
        · exact ih (t + 1) s hs2

/-- Claim C8: in a poll cycle whose appends all pass validation, records
without a usable ticker are skipped without blocking the rest, and each
remaining record is committed as exactly one snapshot with `source = POLL`,
`sequence = None`, and its own capture time (the clock advancing across the
batch). -/
theorem c8_poll_batch_translation (store : Store) (t : Int) (markets : List MarketRecord)
    (hok : ∀ m ∈ markets, (m.ticker.getD ("")).length ≤ 50) :
    pollBatch store t markets = .ok (pollBatchSpec t markets) ∧
    poll_markets store t markets = store ++ pollBatchSpec t markets ∧
    ∀ s ∈ pollBatchSpec t markets, s.source = DataSource.POLL ∧ s.sequence = none := by
  have h1 := pollBatch_ok_of_valid markets store t hok
  exact ⟨h1, by simp [poll_markets, h1], pollBatchSpec_fields markets t⟩

/-- A well-formed market record for ticker `"AAA"`. -/
def mA : MarketRecord :=
  ⟨some ("AAA"), some 10, some 20, some 5⟩

/-- A malformed market record: no ticker field. -/
def mNoTicker : MarketRecord :=
  ⟨none, some 1, some 2, some 3⟩

/-- A malformed market record: empty (falsy) ticker. -/
def mEmptyTicker : MarketRecord :=
  ⟨some (""), some 1, some 2, some 3⟩

/-- A well-formed market record for ticker `"CCC"`. -/
def mC : MarketRecord :=
  ⟨some ("CCC"), some 30, some 40, some 6⟩

/-- Witness for C8: a concrete batch with two malformed records still
commits the two valid ones, in order, with consecutive capture times. -/
theorem c8_poll_batch_translation_witness :
    (pollBatch [] 0 [mA, mNoTicker, mEmptyTicker, mC] =
      .ok (pollBatchSpec 0 [mA, mNoTicker, mEmptyTicker, mC]) ∧
     poll_markets [] 0 [mA, mNoTicker, mEmptyTicker, mC] =
      [] ++ pollBatchSpec 0 [mA, mNoTicker, mEmptyTicker, mC] ∧
     ∀ s ∈ pollBatchSpec 0 [mA, mNoTicker, mEmptyTicker, mC],
       s.source = DataSource.POLL ∧ s.sequence = none) ∧
    pollBatchSpec 0 [mA, mNoTicker, mEmptyTicker, mC] =
      [pollSnap ("AAA") mA 0, pollSnap ("CCC") mC 1] :=
  ⟨c8_poll_batch_translation [] 0 [mA, mNoTicker, mEmptyTicker, mC] (by decide), rfl⟩

/-- A market record whose 51-character ticker the store's `String(50)`
column rejects at flush time. -/
def exBad : MarketRecord :=
  ⟨some ("BBBBBBBBBBBBBBBBBBBBBBBBBBBBBBBBBBBBBBBBBBBBBBBBBBB"), some 1, some 2, some 3⟩

/-- Counterexample to claim C3 as stated: in the batch `[mA, exBad, mC]` the
append of `exBad`'s snapshot fails, and instead of the other two instruments
being "still appended and committed", the whole cycle is abandoned — the
committed store stays empty.  The same batch without the failing record
commits both valid instruments, showing the failure alone removed them. -/
theorem c3_counterexample :
    pollBatch [] 0 [mA, exBad, mC] = .error .ValidationError ∧
    poll_markets [] 0 [mA, exBad, mC] = [] ∧
    poll_markets [] 0 [mA, mC] = [pollSnap ("AAA") mA 0, pollSnap ("CCC") mC 1] :=
  ⟨rfl, rfl, rfl⟩

/-- Reaching a record whose append fails makes the whole batch flush fail,
whatever came before or after it. -/
theorem pollBatch_error_of_invalid (pre : List MarketRecord) :
    ∀ store : Store, ∀ t : Int, ∀ post : List MarketRecord,
    ∀ bad : MarketRecord, ∀ tk : String,
    bad.ticker = some tk → tk ≠ "" → 50 < tk.length →
    ∃ e, pollBatch store t (pre ++ bad :: post) = .error e := by
  induction pre with
  | nil =>
    intro store t post bad tk h1 h2 h3
    refine ⟨.ValidationError, ?_⟩
    have hv : validSnapshot (pollSnap tk bad t) = false := by
      simp [validSnapshot, pollSnap]
      omega
    simp [pollBatch, h1, h2, appendSnap, hv]
  | cons m pre2 ih =>
    intro store t post bad tk h1 h2 h3
    cases htk : m.ticker with
    | none =>
      obtain ⟨e, he⟩ := ih store t post bad tk h1 h2 h3
      exact ⟨e, by simpa [pollBatch, htk] using he⟩
    | some tk2 =>
      by_cases he2 : tk2 = ""
      · obtain ⟨e, he⟩ := ih store t post bad tk h1 h2 h3
        exact ⟨e, by simpa [pollBatch, htk, he2] using he⟩
      · cases hap : appendSnap store (pollSnap tk2 m t) with
        | error e2 => exact ⟨e2, by simp [pollBatch, htk, he2, hap]⟩
        | ok rows2 =>
          obtain ⟨e, he⟩ := ih rows2 (t + 1) post bad tk h1 h2 h3
          exact ⟨e, by simp [pollBatch, htk, he2, hap, he]⟩

/-- Claim C3, amended per the counterexample: when one instrument's append
fails, the failure is caught and logged at the level of the whole cycle, the
remaining instruments of the batch are not appended, the commit never runs,
and the visible store is exactly what it was before the cycle.  Only
records with a missing or empty ticker are skipped without aborting the
batch. -/
theorem c3_append_failure_aborts_batch (store : Store) (t : Int)
    (pre post : List MarketRecord) (bad : MarketRecord) (tk : String)
    (h1 : bad.ticker = some tk) (h2 : tk ≠ "") (h3 : 50 < tk.length) :
    poll_markets store t (pre ++ bad :: post) = store := by
  obtain ⟨e, he⟩ := pollBatch_error_of_invalid pre store t post bad tk h1 h2 h3
  simp [poll_markets, he]

/-- Witness for the amended C3: the concrete aborted batch leaves the store
empty. -/
theorem c3_append_failure_aborts_batch_witness :
    poll_markets [] 0 ([mA] ++ exBad :: [mC]) = [] :=
  c3_append_failure_aborts_batch [] 0 [mA] [mC] exBad
    ("BBBBBBBBBBBBBBBBBBBBBBBBBBBBBBBBBBBBBBBBBBBBBBBBBBB") rfl (by decide) (by decide)

/-- One caught append attempt preserves the uniqueness invariant. -/
theorem wsUnique_applyAppend {store : Store} (h : WsUnique store) (s : MarketSnapshot) :
    WsUnique (applyAppend store s) := by
  unfold applyAppend
  cases hap : appendSnap store s with
  | error e => exact h
  | ok rows =>
    obtain ⟨hrows, hv, hdup⟩ := appendSnap_ok_inv hap
    subst hrows
    intro tk sq
    rw [List.filter_append]
    by_cases hmatch : s.ticker = tk ∧ s.source = DataSource.WEBSOCKET ∧ s.sequence = some sq
    · obtain ⟨hm1, hm2, hm3⟩ := hmatch
      have hall : ∀ r ∈ store, r.ticker = s.ticker → r.source = DataSource.WEBSOCKET →
          ¬r.sequence = some sq := by
        have h2 := hdup
        simp only [dupWebsocketSeq, hm2, hm3] at h2
        simpa [List.any_eq_false] using h2
      have hnone : (store.filter fun r =>
          decide (r.ticker = tk ∧ r.source = DataSource.WEBSOCKET ∧ r.sequence = some sq)) = [] := by
        refine List.filter_eq_nil_iff.mpr fun r hr => ?_
        simp only [decide_eq_true_eq]
        intro hcontra
        exact hall r hr (hcontra.1.trans hm1.symm) hcontra.2.1 hcontra.2.2
      rw [hnone]
      simp [List.filter, hm1, hm2, hm3]
    · have hone : (List.filter (fun r =>
          decide (r.ticker = tk ∧ r.source = DataSource.WEBSOCKET ∧ r.sequence = some sq)) [s]) = [] := by
        refine List.filter_eq_nil_iff.mpr fun r hr => ?_
        simp only [List.mem_singleton] at hr
        subst hr
        simp only [decide_eq_true_eq]
        exact hmatch
      rw [hone]
      simpa using h tk sq

/-- The invariant is preserved by any interleaved sequence of caught append
attempts. -/
theorem wsUnique_applyAppends {store : Store} (h : WsUnique store)
    (ops : List MarketSnapshot) : WsUnique (applyAppends store ops) := by
  induction ops generalizing store with
  | nil => exact h
  | cons s rest ih => exact ih (wsUnique_applyAppend h s)

/-- When the store already holds a WEBSOCKET row with the same ticker and
sequence, the next append of that pair fails and changes nothing. -/
theorem appendSnap_dup_fails {store : Store} {s : MarketSnapshot}
    (hs : s.source = DataSource.WEBSOCKET) (hsq : s.sequence.isSome = true)
    (hex : ∃ r ∈ store, r.ticker = s.ticker ∧ r.source = DataSource.WEBSOCKET ∧
      r.sequence = s.sequence) :
    ∃ e, appendSnap store s = .error e ∧ applyAppend store s = store := by
  have hdup : dupWebsocketSeq store s = true := by
    obtain ⟨r, hr, h1, h2, h3⟩ := hex
    simp [dupWebsocketSeq, hs, hsq, List.any_eq_true]
    exact ⟨r, hr, h1, h2, h3⟩
  obtain ⟨e, he⟩ := (appendSnap_dup_error hdup).1
  exact ⟨e, he, (appendSnap_dup_error hdup).2⟩

/-- Claim C2: starting from a store satisfying the per-ticker WEBSOCKET
sequence uniqueness invariant, any interleaving of poll, push, and backfill
append attempts preserves it — at most one WEBSOCKET row per (ticker,
sequence) pair is ever visible — and an append that would duplicate an
existing WEBSOCKET (ticker, sequence) pair fails rather than creating a
second row. -/
theorem c2_store_uniqueness (store : Store) (ops : List MarketSnapshot)
    (h : WsUnique store) :
    WsUnique (applyAppends store ops) ∧
    ∀ s : MarketSnapshot, s.source = DataSource.WEBSOCKET → s.sequence.isSome = true →
      (∃ r ∈ applyAppends store ops, r.ticker = s.ticker ∧
        r.source = DataSource.WEBSOCKET ∧ r.sequence = s.sequence) →
      ∃ e, appendSnap (applyAppends store ops) s = .error e ∧
        applyAppend (applyAppends store ops) s = applyAppends store ops :=
  ⟨wsUnique_applyAppends h ops,
    fun _ hs hsq hex => appendSnap_dup_fails hs hsq hex⟩

/-- Witness for C2: replaying the same sequence-5 snapshot twice from the
empty store leaves a unique store, and a third attempt fails without
changing it. -/
theorem c2_store_uniqueness_witness :
    WsUnique (applyAppends [] [snapSeq 5, snapSeq 5]) ∧
    ∃ e, appendSnap (applyAppends [] [snapSeq 5, snapSeq 5]) (snapSeq 5) = .error e ∧
      applyAppend (applyAppends [] [snapSeq 5, snapSeq 5]) (snapSeq 5) =
        applyAppends [] [snapSeq 5, snapSeq 5] := by
  have h := c2_store_uniqueness [] [snapSeq 5, snapSeq 5] (by intro tk sq; simp)
  exact ⟨h.1, h.2 (snapSeq 5) rfl rfl ⟨snapSeq 5, by decide, rfl, rfl, rfl⟩⟩

/-- In a list sorted ascending, the first element is the minimum. -/
theorem sorted_headD_eq {l : List Int} (hs : List.Sorted (· ≤ ·) l) {mn : Int}
    (hmem : mn ∈ l) (hlb : ∀ y ∈ l, mn ≤ y) : l.headD 0 = mn := by
  cases l with
  | nil => cases hmem
  | cons a l2 =>
    have h1 : mn ≤ a := hlb a (List.mem_cons_self a l2)
    have h2 : a ≤ mn := by
      rcases List.mem_cons.mp hmem with rfl | hmem2
      · exact le_refl mn
      · exact (List.sorted_cons.mp hs).1 mn hmem2
    exact le_antisymm h2 h1

/-- In a list sorted ascending, every element is at most the last one. -/
theorem sorted_le_getLastD {l : List Int} (hs : List.Sorted (· ≤ ·) l) {x : Int}
    (hx : x ∈ l) : ∀ d : Int, x ≤ l.getLastD d := by
  induction l generalizing x with
  | nil => cases hx
  | cons a l2 ih =>
    intro d
    rw [List.getLastD_cons]
    obtain ⟨ha, hs2⟩ := List.sorted_cons.mp hs
    cases l2 with
    | nil =>
      have hxa : x = a := by simpa using hx
      subst hxa
      exact le_refl x
    | cons b l3 =>
      rcases List.mem_cons.mp hx with rfl | hx2
      · exact le_trans (ha b (List.mem_cons_self b l3)) (ih hs2 (List.mem_cons_self b l3) x)
      · exact ih hs2 hx2 a

/-- The defaulted last element of a nonempty list is one of its elements. -/
theorem getLastD_cons_mem (a : Int) (l : List Int) : ∀ d : Int, (a :: l).getLastD d ∈ a :: l := by
  induction l generalizing a with
  | nil => intro d; simp [List.getLastD]
  | cons b l3 ih =>
    intro d
    rw [List.getLastD_cons]
    exact List.mem_cons_of_mem a (ih b a)

/-- In a list sorted ascending, the last element is the maximum. -/
theorem sorted_getLastD_eq {l : List Int} (hs : List.Sorted (· ≤ ·) l) {mx : Int}
    (hmem : mx ∈ l) (hub : ∀ y ∈ l, y ≤ mx) : l.getLastD 0 = mx := by
  cases l with
  | nil => cases hmem
  | cons a l2 =>
    exact le_antisymm (hub _ (getLastD_cons_mem a l2 0)) (sorted_le_getLastD hs hmem 0)

/-- Claim C1: `detect_gaps` is correct.  With fewer than two observed
WEBSOCKET sequence numbers for the ticker it returns the empty list; with at
least two it returns, in strictly ascending order, exactly the integers of
the closed range from the minimum to the maximum observed value that are
absent from the observed set. -/
theorem c1_detect_gaps_correct (store : Store) (tk : String) :
    ((wsSequences store tk).length < 2 → detect_gaps store tk = []) ∧
    (∀ mn mx : Int,
      2 ≤ (wsSequences store tk).length →
      mn ∈ wsSequences store tk → (∀ y ∈ wsSequences store tk, mn ≤ y) →
      mx ∈ wsSequences store tk → (∀ y ∈ wsSequences store tk, y ≤ mx) →
      List.Pairwise (· < ·) (detect_gaps store tk) ∧
      ∀ x : Int, x ∈ detect_gaps store tk ↔
        (mn ≤ x ∧ x ≤ mx ∧ x ∉ wsSequences store tk)) := by
  have hperm : (sequencesForTicker store tk).Perm (wsSequences store tk) :=
    List.perm_insertionSort _ _
  have hlen : (sequencesForTicker store tk).length = (wsSequences store tk).length :=
    hperm.length_eq
  have hsorted : List.Sorted (· ≤ ·) (sequencesForTicker store tk) :=
    List.sorted_insertionSort _ _
  constructor
  · intro hlt
    have hc : (sequencesForTicker store tk).length < 2 := by omega
    simp only [detect_gaps]
    rw [if_pos hc]
  · intro mn mx hge hmn hmnlb hmx hmxub
    have hmn2 : mn ∈ sequencesForTicker store tk := hperm.mem_iff.mpr hmn
    have hmnlb2 : ∀ y ∈ sequencesForTicker store tk, mn ≤ y :=
      fun y hy => hmnlb y (hperm.mem_iff.mp hy)
    have hmx2 : mx ∈ sequencesForTicker store tk := hperm.mem_iff.mpr hmx
    have hmxub2 : ∀ y ∈ sequencesForTicker store tk, y ≤ mx :=
      fun y hy => hmxub y (hperm.mem_iff.mp hy)
    have hhead : (sequencesForTicker store tk).headD 0 = mn :=
      sorted_headD_eq hsorted hmn2 hmnlb2
    have hlast : (sequencesForTicker store tk).getLastD 0 = mx :=
      sorted_getLastD_eq hsorted hmx2 hmxub2
    have hnc : ¬ (sequencesForTicker store tk).length < 2 := by omega
    have hdg : detect_gaps store tk =
        ((List.range (mx + 1 - mn).toNat).map fun (i : Nat) => mn + (i : Int)).filter
          fun s => !(sequencesForTicker store tk).contains s := by
      simp only [detect_gaps]
      rw [if_neg hnc, hhead, hlast]
    constructor
    · rw [hdg]
      refine List.Pairwise.filter _ (List.Pairwise.map _ ?_ (List.pairwise_lt_range _))
      intro a b hab
      have hab2 : a < b := hab
      omega
    · intro x
      rw [hdg]
      constructor
      · intro hx
        obtain ⟨hxm, hcont⟩ := List.mem_filter.mp hx
        obtain ⟨i, hir, hxeq⟩ := List.mem_map.mp hxm
        rw [List.mem_range] at hir
        have hnotin : x ∉ sequencesForTicker store tk := by simpa using hcont
        exact ⟨by omega, by omega, fun hxin => hnotin (hperm.mem_iff.mpr hxin)⟩
      · rintro ⟨h1, h2, h3⟩
        have hnotin : x ∉ sequencesForTicker store tk :=
          fun hxin => h3 (hperm.mem_iff.mp hxin)
        exact List.mem_filter.mpr
          ⟨List.mem_map.mpr ⟨(x - mn).toNat, List.mem_range.mpr (by omega), by omega⟩,
            by simpa using hnotin⟩

/-- Witness for C1: a single observation yields no gaps, and on the store
with observations 1, 2, 4, 5, 7 the gap list is strictly ascending and
contains 3 exactly because 3 lies in the observed range and is missing. -/
theorem c1_detect_gaps_correct_witness :
    detect_gaps exStoreSingle ("T") = [] ∧
    List.Pairwise (· < ·) (detect_gaps exStoreC1 ("T")) ∧
    (3 ∈ detect_gaps exStoreC1 ("T") ↔
      ((1 : Int) ≤ 3 ∧ (3 : Int) ≤ 7 ∧ (3 : Int) ∉ wsSequences exStoreC1 ("T"))) := by
  refine ⟨(c1_detect_gaps_correct exStoreSingle ("T")).1 (by decide), ?_, ?_⟩
  · exact ((c1_detect_gaps_correct exStoreC1 ("T")).2 1 7
      (by decide) (by decide) (by decide) (by decide) (by decide)).1
  · exact ((c1_detect_gaps_correct exStoreC1 ("T")).2 1 7
      (by decide) (by decide) (by decide) (by decide) (by decide)).2 3
